import Mathlib

/-!
Shallow embedding of `src/vs/workbench/services/progress/browser/progressService.ts`.

The file defines the data model (`ProgressState`, the widget, promises with
`Promise.all` join semantics) and the two reporter variants
(`ScopedProgressService`, `ProgressService`) as executable Lean functions that
mirror the TypeScript source line by line, and then proves or refutes the
frozen claims about them.

Conventions used throughout:
* JavaScript `number | undefined` fields become `Option Nat`; a JS truthiness
  test `if (x)` on such a field becomes `truthy x` (defined iff present and
  nonzero).
* `Date.now()` becomes an explicit `now : Nat` argument threaded to every
  operation that reads the clock in the source.
* Promises are identified by reference (`Prom`), with `Prom.allOf` standing
  for `Promise.all([_, _])`; strict (in)equality `!==` on promises becomes
  decidable equality on `Prom`.
* The widget (`ProgressBar`) is an external collaborator that is not part of
  the repository sources; it is modelled from the spec (see `Bar`).
-/

namespace VSProgress

/-- Outcome of a settled promise: fulfilled or rejected. -/
inductive Outcome
  | fulfilled
  | rejected
deriving DecidableEq, Repr

/-- A settled promise, reduced to its outcome and the time at which it settled. -/
structure Settlement where
  out : Outcome
  time : Nat
deriving DecidableEq, Repr

/-- What a settlement callback does when invoked: return normally or throw.
All callbacks in this file are total Lean functions, so they `returns`. -/
inductive CbOutcome
  | returns
  | throws
deriving DecidableEq, Repr

/-- `p.then(onF, onR)`: the returned promise settles at the same time as `p`;
it fulfills iff the callback that ran returned normally. -/
def thenSettle (s : Settlement) (onF onR : CbOutcome) : Settlement :=
  match s.out with
  | .fulfilled => ⟨match onF with | .returns => .fulfilled | .throws => .rejected, s.time⟩
  | .rejected => ⟨match onR with | .returns => .fulfilled | .throws => .rejected, s.time⟩

/-- Promises by identity: base promises are numbered; `allOf a b` is
`Promise.all([a, b])`.  Equality is reference equality, as in the source's
`!==` check. -/
inductive Prom
  | base (id : Nat)
  | allOf (a b : Prom)
deriving DecidableEq, Repr

/-- Settlement of a promise given the settlements of the base promises.
`Promise.all` fulfills once all members have fulfilled (at the last
fulfillment time) and rejects as soon as any member rejects (at the first
rejection time). -/
def settle (env : Nat → Settlement) : Prom → Settlement
  | .base i => env i
  | .allOf a b =>
      let sa := settle env a
      let sb := settle env b
      match sa.out, sb.out with
      | .fulfilled, .fulfilled => ⟨.fulfilled, max sa.time sb.time⟩
      | .rejected, .fulfilled => ⟨.rejected, sa.time⟩
      | .fulfilled, .rejected => ⟨.rejected, sb.time⟩
      | .rejected, .rejected => ⟨.rejected, min sa.time sb.time⟩

/-- Calls the reporters can make on the widget, in the source's vocabulary:
`infinite()`, `total(n)`, `worked(n)`, `show(delay?)` (named `reveal` here
because `show` is a Lean keyword), `stop()`, `hide()`. -/
inductive BarCall
  | infinite
  | total (n : Nat)
  | worked (n : Nat)
  | reveal (delay : Option Nat)
  | stop
  | hide
deriving DecidableEq, Repr

/-- Modelled from the spec: the visual progress-bar widget (an external
collaborator, §6 of the spec; its implementation is not under `src/`).
`startIndeterminate` switches the widget to indeterminate mode, after which it
no longer reports a determinate total; `startDeterminate(total)` establishes a
total and resets the cumulative worked amount (this reset is what makes the
spec's §4.4 replay of a cumulative worked amount line up with the per-delta
`setWorked` calls of an always-active run); `setWorked` accumulates;
`reveal(delay?)` eventually makes the widget visible (the display fields
record the quiescent state after any pending reveal delay has elapsed, while
`trace` records every call with its exact arguments).  `stop` halts the
animation and `conceal`/`hide` hides the widget. -/
structure Bar where
  running : Bool
  infiniteMode : Bool
  totalWork : Option Nat
  workedVal : Nat
  visible : Bool
  trace : List BarCall
deriving DecidableEq, Repr

def Bar.infinite (b : Bar) : Bar :=
  { b with running := true, infiniteMode := true, totalWork := none, workedVal := 0,
           trace := b.trace ++ [BarCall.infinite] }

def Bar.total (b : Bar) (n : Nat) : Bar :=
  { b with running := true, infiniteMode := false, totalWork := some n, workedVal := 0,
           trace := b.trace ++ [BarCall.total n] }

def Bar.worked (b : Bar) (n : Nat) : Bar :=
  { b with workedVal := b.workedVal + n, trace := b.trace ++ [BarCall.worked n] }

def Bar.reveal (b : Bar) (delay : Option Nat) : Bar :=
  { b with visible := true, trace := b.trace ++ [BarCall.reveal delay] }

def Bar.stop (b : Bar) : Bar :=
  { b with running := false, trace := b.trace ++ [BarCall.stop] }

def Bar.hide (b : Bar) : Bar :=
  { b with visible := false, trace := b.trace ++ [BarCall.hide] }

/-- `progressbar.hasTotal()`: `isNumber(this.totalWork)`. -/
def Bar.hasTotal (b : Bar) : Bool :=
  b.totalWork.isSome

/-- The observable display state of the widget: everything except the call
trace. -/
structure BarDisplay where
  running : Bool
  infiniteMode : Bool
  totalWork : Option Nat
  workedVal : Nat
  visible : Bool
deriving DecidableEq, Repr

def Bar.display (b : Bar) : BarDisplay :=
  ⟨b.running, b.infiniteMode, b.totalWork, b.workedVal, b.visible⟩

/-- A freshly constructed, idle, hidden widget. -/
def bar0 : Bar :=
  ⟨false, false, none, 0, false, []⟩

/-- JS truthiness of a `number | undefined` value: defined and nonzero. -/
def truthy (o : Option Nat) : Bool :=
  o.getD 0 != 0

/-- `ProgressState` (lines 14-44 of the source): `none`, `done`, `infinite`,
`WhileProgressState(whilePromise, whileStart, whileDelay)` and
`WorkProgressState(total, worked)`. -/
inductive PState
  | none
  | done
  | infinite
  | whileState (whilePromise : Prom) (whileStart : Nat) (whileDelay : Nat)
  | work (total : Option Nat) (worked : Option Nat)
deriving DecidableEq, Repr

/-- The `infiniteOrTotal : boolean | number` argument of `show`; `typeof`
dispatch in the source becomes a match on the constructor. -/
inductive InfiniteOrTotal
  | bool (b : Bool)
  | num (n : Nat)
deriving DecidableEq, Repr

/-- `ScopedProgressService` (line 79): the scope-activity flag, the scope
identifier (a `string` that may be `undefined`/`null`, hence `Option String`),
the recorded progress state and the injected widget. -/
structure ScopedProgressService where
  isActive : Bool
  scopeId : Option String
  progressState : PState
  bar : Bar
deriving DecidableEq, Repr

/-- The constructor (lines 85-96):
`this.isActive = isActive || types.isUndefinedOrNull(scopeId)`. -/
def mkScoped (bar : Bar) (scopeId : Option String) (isActive : Bool) : ScopedProgressService :=
  { isActive := isActive || scopeId.isNone
    scopeId := scopeId
    progressState := PState.none
    bar := bar }

namespace ScopedProgressService

/-- `onScopeDeactivated` (lines 98-100): only flips the flag. -/
def onScopeDeactivated (s : ScopedProgressService) : ScopedProgressService :=
  { s with isActive := false }

/-- `doShowWhile` (lines 234-240): show indeterminate progress when active. -/
def doShowWhile (delay : Option Nat) (s : ScopedProgressService) : ScopedProgressService :=
  if s.isActive then { s with bar := (s.bar.infinite).reveal delay } else s

/-- `onScopeActivated` (lines 102-138): set the flag and replay the recorded
state onto the widget.  The `While` branch computes
`whileDelay - (Date.now() - whileStart)` guarded by `whileDelay > 0`; the
`Work` branch replays `total` and `worked` under JS truthiness checks. -/
def onScopeActivated (now : Nat) (s : ScopedProgressService) : ScopedProgressService :=
  let s := { s with isActive := true }
  match s.progressState with
  | .done => s
  | .whileState _ start dly =>
      let delay : Option Nat :=
        if dly > 0 then
          let remaining : Int := (dly : Int) - ((now : Int) - (start : Int))
          if remaining > 0 then some remaining.toNat else Option.none
        else Option.none
      doShowWhile delay s
  | .infinite => { s with bar := (s.bar.infinite).reveal Option.none }
  | .work t w =>
      let s := if truthy t then { s with bar := (s.bar.total (t.getD 0)).reveal Option.none } else s
      let s := if truthy w then { s with bar := (s.bar.worked (w.getD 0)).reveal Option.none } else s
      s
  | .none => s

/-- `show` (lines 140-162, named `show'` because `show` is a Lean keyword):
a boolean argument selects the infinite branch regardless of its value, a
numeric argument records `WorkProgressState(total, undefined)`; when active
the widget is started and revealed after the given delay. -/
def show' (arg : InfiniteOrTotal) (delay : Option Nat) (s : ScopedProgressService) :
    ScopedProgressService :=
  let s :=
    match arg with
    | .bool _ => { s with progressState := PState.infinite }
    | .num n => { s with progressState := PState.work (some n) Option.none }
  if s.isActive then
    match s.progressState with
    | .infinite => { s with bar := (s.bar.infinite).reveal delay }
    | .work (some n) _ => { s with bar := (s.bar.total n).reveal delay }
    | _ => s
  else s

/-- The handle's `total` (lines 165-173): carry `worked` if the current state
is `Work`, set the new total, and forward to the widget when active. -/
def total (n : Nat) (s : ScopedProgressService) : ScopedProgressService :=
  let carried : Option Nat :=
    match s.progressState with
    | .work _ w => w
    | _ => Option.none
  let s := { s with progressState := PState.work (some n) carried }
  if s.isActive then { s with bar := s.bar.total n } else s

/-- The handle's `worked` (lines 175-193): when inactive or the widget has a
total, accumulate into the `Work` state (carrying the current total) and
forward the delta when active; otherwise fall back to infinite progress. -/
def worked (n : Nat) (s : ScopedProgressService) : ScopedProgressService :=
  if !s.isActive || s.bar.hasTotal then
    let t : Option Nat :=
      match s.progressState with
      | .work t _ => t
      | _ => Option.none
    let w : Option Nat :=
      match s.progressState with
      | .work _ (some k) => some (k + n)
      | _ => some n
    let s := { s with progressState := PState.work t w }
    if s.isActive then { s with bar := s.bar.worked n } else s
  else
    { s with progressState := PState.infinite, bar := (s.bar.infinite).reveal Option.none }

/-- The handle's `done` (lines 195-201): record `Done` and, when active, stop
and hide the widget. -/
def done (s : ScopedProgressService) : ScopedProgressService :=
  let s := { s with progressState := PState.done }
  if s.isActive then { s with bar := (s.bar.stop).hide } else s

/-- The join at the start of `showWhile` (lines 206-209):
`promise = Promise.all([promise, this.progressState.whilePromise])` when the
current state is a `While`. -/
def showWhileJoin (s : ScopedProgressService) (p : Prom) : Prom :=
  match s.progressState with
  | .whileState q _ _ => Prom.allOf p q
  | _ => p

/-- The state-updating part of `showWhile` (lines 205-212 and 229): join with
a pending `While`, record
`new WhileProgressState(promise, delay || 0, Date.now())` — note the source
passes `delay || 0` as `whileStart` and `Date.now()` as `whileDelay` — and
run `doShowWhile(delay)`. -/
def showWhileState (p : Prom) (delay : Option Nat) (now : Nat) (s : ScopedProgressService) :
    ScopedProgressService :=
  let p' := showWhileJoin s p
  let s := { s with progressState := PState.whileState p' (delay.getD 0) now }
  doShowWhile delay s

/-- The `stop` closure of `showWhile` (lines 214-227), with `p` the promise
the closure captured: return early when the current state is a `While` for a
different promise; otherwise clear the state and, when active, stop and hide
the widget. -/
def stop (p : Prom) (s : ScopedProgressService) : ScopedProgressService :=
  match s.progressState with
  | .whileState q _ _ =>
      if q = p then
        { s with progressState := PState.none,
                 bar := if s.isActive then (s.bar.stop).hide else s.bar }
      else s
  | _ =>
      { s with progressState := PState.none,
               bar := if s.isActive then (s.bar.stop).hide else s.bar }

/-- Settlement of the future returned by `showWhile` (line 231):
`promise.then(stop, stop)` where `promise` is the joined promise and `stop`
is a total function, hence returns normally on either outcome. -/
def showWhileFuture (env : Nat → Settlement) (p : Prom) (s : ScopedProgressService) : Settlement :=
  thenSettle (settle env (showWhileJoin s p)) CbOutcome.returns CbOutcome.returns

end ScopedProgressService

/-- The unscoped `ProgressService` (lines 243-286): no state, every request is
forwarded directly to the widget. -/
structure ProgressService where
  bar : Bar
deriving DecidableEq, Repr

namespace ProgressService

/-- Unscoped `show` (lines 249-256). -/
def show' (arg : InfiniteOrTotal) (delay : Option Nat) (ps : ProgressService) : ProgressService :=
  match arg with
  | .bool _ => { ps with bar := (ps.bar.infinite).reveal delay }
  | .num n => { ps with bar := (ps.bar.total n).reveal delay }

/-- Unscoped handle `total` (lines 259-261). -/
def total (n : Nat) (ps : ProgressService) : ProgressService :=
  { ps with bar := ps.bar.total n }

/-- Unscoped handle `worked` (lines 263-269): forward when the widget has a
total, otherwise fall back to infinite progress. -/
def worked (n : Nat) (ps : ProgressService) : ProgressService :=
  if ps.bar.hasTotal then { ps with bar := ps.bar.worked n }
  else { ps with bar := (ps.bar.infinite).reveal Option.none }

/-- Unscoped handle `done` (lines 271-273). -/
def done (ps : ProgressService) : ProgressService :=
  { ps with bar := (ps.bar.stop).hide }

/-- Unscoped `showWhile` (lines 277-285): start infinite progress and stop on
settlement of either outcome; no joining. -/
def showWhileStart (delay : Option Nat) (ps : ProgressService) : ProgressService :=
  { ps with bar := (ps.bar.infinite).reveal delay }

/-- Settlement of the future returned by the unscoped `showWhile` (line 284):
`promise.then(stop, stop)` with a total `stop`. -/
def showWhileFuture (env : Nat → Settlement) (p : Prom) : Settlement :=
  thenSettle (settle env p) CbOutcome.returns CbOutcome.returns

end ProgressService

/-- A public call on a scoped reporter, for stating sequence properties:
`show`, the three handle operations (the handle's closures capture only the
reporter, so handles are interchangeable), and the state-updating part of
`showWhile`. -/
inductive Ev
  | showEv (arg : InfiniteOrTotal) (delay : Option Nat)
  | totalEv (n : Nat)
  | workedEv (n : Nat)
  | doneEv
  | showWhileEv (p : Prom) (delay : Option Nat)
deriving DecidableEq, Repr

def applyEv (now : Nat) (e : Ev) (s : ScopedProgressService) : ScopedProgressService :=
  match e with
  | .showEv arg delay => s.show' arg delay
  | .totalEv n => s.total n
  | .workedEv n => s.worked n
  | .doneEv => s.done
  | .showWhileEv p delay => s.showWhileState p delay now

def applyEvs (now : Nat) (evs : List Ev) (s : ScopedProgressService) : ScopedProgressService :=
  evs.foldl (fun s e => applyEv now e s) s

/-- A handle operation other than `done`, for stating the `Work`
accumulation property. -/
inductive HEv
  | htotal (n : Nat)
  | hworked (n : Nat)
deriving DecidableEq, Repr

def applyH (e : HEv) (s : ScopedProgressService) : ScopedProgressService :=
  match e with
  | .htotal n => s.total n
  | .hworked n => s.worked n

def applyHs (evs : List HEv) (s : ScopedProgressService) : ScopedProgressService :=
  evs.foldl (fun s e => applyH e s) s

/-- Sum of all `worked` deltas in a handle-call sequence. -/
def sumDeltas : List HEv → Nat
  | [] => 0
  | .htotal _ :: r => sumDeltas r
  | .hworked n :: r => n + sumDeltas r

/-- The total after a handle-call sequence: the argument of the last `total`
call, or the initial total if there is none. -/
def lastTotal (t : Option Nat) : List HEv → Option Nat
  | [] => t
  | .htotal n :: r => lastTotal (some n) r
  | .hworked _ :: r => lastTotal t r

def hasWorkedEv : List HEv → Bool
  | [] => false
  | .htotal _ :: r => hasWorkedEv r
  | .hworked _ :: _ => true

/-- The expected `worked` component after a handle-call sequence starting
from a `Work` state with worked component `w`: absent only if it was absent
and no `worked` call occurred, otherwise the running value plus the sum of
all deltas. -/
def expWorked (w : Option Nat) (evs : List HEv) : Option Nat :=
  if w.isSome || hasWorkedEv evs then some (w.getD 0 + sumDeltas evs) else none

/-- The display state after `progressbar.infinite().show()`. -/
def infiniteShownDisplay : BarDisplay :=
  ⟨true, true, none, 0, true⟩

/-- The display state after `progressbar.total(t).show()` followed by
`progressbar.worked(w).show()`. -/
def workShownDisplay (t w : Nat) : BarDisplay :=
  ⟨true, false, some t, w, true⟩

/-- The widget display agrees with the recorded `ProgressState`, i.e. the
display already shows exactly what `onScopeActivated` would replay.  This is
the condition under which the replay is idempotent on the display. -/
def replayIdle (s : ScopedProgressService) : Prop :=
  match s.progressState with
  | .none => True
  | .done => True
  | .infinite => s.bar.display = infiniteShownDisplay
  | .whileState _ _ _ => s.bar.display = infiniteShownDisplay
  | .work t w =>
      (truthy t = false ∧ truthy w = false) ∨
      (truthy t = true ∧ s.bar.display = workShownDisplay (t.getD 0) (w.getD 0))

/-- Number of `stop()` calls in a widget trace. -/
def traceStops (tr : List BarCall) : Nat :=
  tr.countP (fun c => decide (c = BarCall.stop))

/-- Run a list of pending `stop` closures (captured promise paired with the
time its promise settles) in order, recording the times at which the widget
actually received a `stop()` call. -/
def runStops (cbs : List (Nat × Prom)) (s : ScopedProgressService) :
    ScopedProgressService × List Nat :=
  cbs.foldl
    (fun acc tp =>
      let s' := ScopedProgressService.stop tp.2 acc.1
      (s', acc.2 ++ (if traceStops acc.1.bar.trace < traceStops s'.bar.trace then [tp.1] else [])))
    (s, [])

/-- Result of the two-`showWhile` scenario: final service, the times at which
the widget was stopped, and the settlements of the two returned futures. -/
structure C2Out where
  final : ScopedProgressService
  stopsAt : List Nat
  fut1 : Settlement
  fut2 : Settlement
deriving DecidableEq, Repr

/-- The joined `showWhile` scenario of the spec: on a fresh active scoped
reporter, `showWhile(A)` is called (at time 0), then `showWhile(B)` (at time
1) while the first is pending; base promise `A` settles as `sa` and `B` as
`sb`.  Each call registers its `stop` closure on the promise it captured
(`A` for the first call, `Promise.all([B, A])` for the second); the closures
run in settlement-time order, and on equal times in registration order, as
the single-threaded event loop delivers them. -/
def c2Scenario (sa sb : Settlement) : C2Out :=
  let env : Nat → Settlement := fun i => if i = 0 then sa else sb
  let A := Prom.base 0
  let B := Prom.base 1
  let s0 := mkScoped bar0 (some "scope") true
  let p1 := s0.showWhileJoin A
  let s1 := s0.showWhileState A Option.none 0
  let fut1 := thenSettle (settle env p1) CbOutcome.returns CbOutcome.returns
  let p2 := s1.showWhileJoin B
  let s2 := s1.showWhileState B Option.none 1
  let fut2 := thenSettle (settle env p2) CbOutcome.returns CbOutcome.returns
  let t1 := (settle env p1).time
  let t2 := (settle env p2).time
  let cbs := if t2 < t1 then [(t2, p2), (t1, p1)] else [(t1, p1), (t2, p2)]
  let r := runStops cbs s2
  ⟨r.1, r.2, fut1, fut2⟩

/-! Concrete fixtures used by the counterexample and witness theorems below. -/

/-- An active scoped reporter on which `showWhile(base 0, delay = 1000)` was
called at clock time `t0`. -/
def c1Begin (t0 : Nat) : ScopedProgressService :=
  (mkScoped bar0 (some "x") true).showWhileState (Prom.base 0) (some 1000) t0

/-- An always-active reporter after `show(total = 0)` and `worked(3)`. -/
def c3Always : ScopedProgressService :=
  applyEvs 0 [Ev.showEv (InfiniteOrTotal.num 0) Option.none, Ev.workedEv 3]
    (mkScoped bar0 (some "scope") true)

def c3InactiveSvc : ScopedProgressService :=
  ⟨false, some "c3", PState.none, bar0⟩

def c3ActiveIdleSvc : ScopedProgressService :=
  mkScoped bar0 (some "w") true

def c4InactiveWorkSvc : ScopedProgressService :=
  ⟨false, some "c4", PState.work (some 5) Option.none, bar0⟩

def c4InactiveNoneSvc : ScopedProgressService :=
  ⟨false, some "c4n", PState.none, bar0⟩

def c5InactiveSvc : ScopedProgressService :=
  ⟨false, some "c5", PState.none, bar0⟩

def c5ActiveNoTotalSvc : ScopedProgressService :=
  ⟨true, some "c5w", PState.done, bar0⟩

def c6WhileSvc : ScopedProgressService :=
  ⟨true, some "c6", PState.whileState (Prom.base 1) 0 0, bar0⟩

def c8ActiveSvc : ScopedProgressService :=
  ⟨true, some "c8", PState.infinite, bar0⟩

/-! Helper lemmas. -/

theorem truthy_false_getD {o : Option Nat} (h : truthy o = false) : o.getD 0 = 0 := by
  cases o with
  | none => rfl
  | some n => simpa [truthy] using h

theorem thenSettle_returns (s : Settlement) :
    thenSettle s CbOutcome.returns CbOutcome.returns = ⟨Outcome.fulfilled, s.time⟩ := by
  cases s with
  | mk o t => cases o <;> rfl

theorem expWorked_htotal (w : Option Nat) (n : Nat) (r : List HEv) :
    expWorked w (HEv.htotal n :: r) = expWorked w r := by
  simp [expWorked, hasWorkedEv, sumDeltas]

theorem expWorked_hworked (w : Option Nat) (n : Nat) (r : List HEv) :
    expWorked w (HEv.hworked n :: r) = expWorked (some (w.getD 0 + n)) r := by
  simp [expWorked, hasWorkedEv, sumDeltas, Nat.add_assoc]

/-- Effect of a handle `total(n)` call on a reporter in a `Work` state: the
new total is recorded, the worked amount is carried, the activity flag is
untouched, and the guard "inactive or the widget has a total" is preserved. -/
theorem total_step (n : Nat) (s : ScopedProgressService) (t w : Option Nat)
    (hg : s.isActive = false ∨ s.bar.hasTotal = true)
    (hst : s.progressState = PState.work t w) :
    (s.total n).progressState = PState.work (some n) w ∧
    ((s.total n).isActive = false ∨ (s.total n).bar.hasTotal = true) := by
  cases s with
  | mk act sid st bar =>
      simp only at hst
      subst hst
      cases act with
      | false => simp [ScopedProgressService.total]
      | true => simp [ScopedProgressService.total, Bar.total, Bar.hasTotal]

/-- Effect of a handle `worked(n)` call on a reporter in a `Work` state under
the guard: the delta is added to the running worked value, and the guard is
preserved. -/
theorem worked_step (n : Nat) (s : ScopedProgressService) (t w : Option Nat)
    (hg : s.isActive = false ∨ s.bar.hasTotal = true)
    (hst : s.progressState = PState.work t w) :
    (s.worked n).progressState = PState.work t (some (w.getD 0 + n)) ∧
    ((s.worked n).isActive = false ∨ (s.worked n).bar.hasTotal = true) := by
  cases s with
  | mk act sid st bar =>
      simp only at hst
      subst hst
      cases act with
      | false =>
          cases w <;> simp [ScopedProgressService.worked]
      | true =>
          rcases hg with hg | hg
          · exact absurd hg (by simp)
          · simp only [Bar.hasTotal] at hg
            cases w <;> simp [ScopedProgressService.worked, hg, Bar.worked, Bar.hasTotal]

/-- Core accumulation invariant behind C4: starting from any `Work` state,
a sequence of handle `total`/`worked` calls (under the guard that keeps the
`worked` path on its accumulating branch) ends in the `Work` state whose
total is the last assigned one and whose worked value is the running value
plus the sum of all deltas. -/
theorem applyHs_work (evs : List HEv) :
    ∀ (s : ScopedProgressService) (t w : Option Nat),
      (s.isActive = false ∨ s.bar.hasTotal = true) →
      s.progressState = PState.work t w →
      (applyHs evs s).progressState = PState.work (lastTotal t evs) (expWorked w evs) := by
  induction evs with
  | nil =>
      intro s t w _ hst
      cases w <;> simp [applyHs, lastTotal, expWorked, hasWorkedEv, sumDeltas, hst]
  | cons e r ih =>
      intro s t w hg hst
      cases e with
      | htotal n =>
          obtain ⟨h1, h2⟩ := total_step n s t w hg hst
          have : applyHs (HEv.htotal n :: r) s = applyHs r (s.total n) := rfl
          rw [this, lastTotal, expWorked_htotal]
          exact ih (s.total n) (some n) w h2 h1
      | hworked n =>
          obtain ⟨h1, h2⟩ := worked_step n s t w hg hst
          have : applyHs (HEv.hworked n :: r) s = applyHs r (s.worked n) := rfl
          rw [this, lastTotal, expWorked_hworked]
          exact ih (s.worked n) t (some (w.getD 0 + n)) h2 h1

/-! The claims. -/

/-- C1: the claim states that a `While` begun by `showWhile(p, delay)` at time
`t0` and reactivated at `t0 + e` (with `e < delay`) is replayed with reveal
delay `delay - e`.  The code instead constructs
`new WhileProgressState(promise, delay || 0, Date.now())`, passing the delay
as `whileStart` and the clock reading as `whileDelay` — the constructor's
parameters in the opposite roles from their names.  Because the replay
formula `whileDelay - (now - whileStart)` is symmetric in the two fields the
slip is masked whenever `t0 > 0`, but the `whileDelay > 0` guard then tests
the clock instead of the delay: at `t0 = 0` (with `delay = 1000`,
reactivation at `400`) the replay reveals with no delay at all, instead of
the claimed `600`.  The third conjunct shows the masked behaviour at
`t0 = 1`. -/
theorem c1_swapped_while_fields :
    (c1Begin 0).bar.trace = [BarCall.infinite, BarCall.reveal (some 1000)] ∧
    (ScopedProgressService.onScopeActivated 400 (c1Begin 0).onScopeDeactivated).bar.trace
      = [BarCall.infinite, BarCall.reveal (some 1000),
         BarCall.infinite, BarCall.reveal Option.none] ∧
    (ScopedProgressService.onScopeActivated 401 (c1Begin 1).onScopeDeactivated).bar.trace
      = [BarCall.infinite, BarCall.reveal (some 1000),
         BarCall.infinite, BarCall.reveal (some 600)] := by
  decide

/-- C2 counterexample: with operation `A` fulfilling at `t = 10` and `B`
rejecting at `t = 5` (the spec's own scenario), the claim predicts that both
returned futures resolve at `10` and the widget is stopped exactly once, at
`10`.  In fact `Promise.all([B, A])` rejects at `5`: the second returned
future resolves at `5`, the widget is stopped and hidden at `5`, and then —
the state being `None`, so the staleness guard does not fire — stopped and
hidden again at `10`. -/
theorem c2_counterexample :
    (c2Scenario ⟨Outcome.fulfilled, 10⟩ ⟨Outcome.rejected, 5⟩).stopsAt = [5, 10] ∧
    (c2Scenario ⟨Outcome.fulfilled, 10⟩ ⟨Outcome.rejected, 5⟩).fut2
      = ⟨Outcome.fulfilled, 5⟩ ∧
    (c2Scenario ⟨Outcome.fulfilled, 10⟩ ⟨Outcome.rejected, 5⟩).fut1
      = ⟨Outcome.fulfilled, 10⟩ := by
  decide

/-- C3 counterexample: after `show(total = 0)` and `worked(3)` on an active
reporter, the recorded state is `Work{total = 0, worked = 3}`.  The
reactivation replay skips the total (JS truthiness: `0` is falsy) but
re-issues `worked(3)`, so the widget's cumulative worked amount becomes `6`,
while the always-active run shows `3`: the deactivate/reactivate cycle is not
a no-op. -/
theorem c3_counterexample :
    (ScopedProgressService.onScopeActivated 0 c3Always.onScopeDeactivated).bar.display
      ≠ c3Always.bar.display ∧
    c3Always.bar.workedVal = 3 ∧
    (ScopedProgressService.onScopeActivated 0 c3Always.onScopeDeactivated).bar.workedVal = 6 := by
  decide

/-- C2 amended: the join follows `Promise.all` semantics.  When both
operations *fulfill* (at any times, in any order), the second call's returned
future resolves only once both have settled — at the later of the two times —
the widget's stop+hide effect occurs exactly once, at that same time (the
first call's earlier-firing callback is recognised as stale and no-ops), and
the final state is `None`; the first call's returned future, however,
resolves when its own operation settles.  When a member rejects,
`Promise.all` short-circuits: the joined future settles at the first
rejection, the widget is stopped then, and stopped a second time when the
first call's own settlement later fires (see the counterexample). -/
theorem c2_amended_join (ta tb : Nat) :
    (c2Scenario ⟨Outcome.fulfilled, ta⟩ ⟨Outcome.fulfilled, tb⟩).stopsAt = [max ta tb] ∧
    (c2Scenario ⟨Outcome.fulfilled, ta⟩ ⟨Outcome.fulfilled, tb⟩).fut2
      = ⟨Outcome.fulfilled, max ta tb⟩ ∧
    (c2Scenario ⟨Outcome.fulfilled, ta⟩ ⟨Outcome.fulfilled, tb⟩).fut1
      = ⟨Outcome.fulfilled, ta⟩ ∧
    (c2Scenario ⟨Outcome.fulfilled, ta⟩ ⟨Outcome.fulfilled, tb⟩).final.progressState
      = PState.none := by
  have hmax : ¬ (max tb ta < ta) := Nat.not_lt.mpr (Nat.le_max_right tb ta)
  simp [c2Scenario, settle, thenSettle, runStops, mkScoped,
    ScopedProgressService.showWhileState, ScopedProgressService.showWhileJoin,
    ScopedProgressService.doShowWhile, ScopedProgressService.stop,
    bar0, Bar.infinite, Bar.reveal, Bar.stop, Bar.hide, traceStops, hmax,
    Nat.max_comm tb ta]

/-- C3 amended: a deactivation is widget-silent — while inactive every
`show`/`showWhile`/handle call leaves the widget completely untouched (trace
included) — and a deactivate/reactivate cycle with no intervening calls
preserves the recorded state and reproduces the widget display, *provided*
the display agrees with the recorded state (`replayIdle`, which always holds
on the happy path but fails when a recorded truthy `worked` rides on a falsy
`total`, or when the widget's cumulative worked amount has drifted from the
recorded one — see the counterexample). -/
theorem c3_deactivate_reactivate_noop :
    (∀ (now : Nat) (e : Ev) (s : ScopedProgressService), s.isActive = false →
        (applyEv now e s).bar = s.bar) ∧
    (∀ (now : Nat) (s : ScopedProgressService), s.isActive = true → replayIdle s →
        (ScopedProgressService.onScopeActivated now s.onScopeDeactivated).bar.display
          = s.bar.display ∧
        (ScopedProgressService.onScopeActivated now s.onScopeDeactivated).progressState
          = s.progressState ∧
        (ScopedProgressService.onScopeActivated now s.onScopeDeactivated).isActive = true) := by
  constructor
  · intro now e s hin
    cases s with
    | mk act sid st bar =>
        simp only at hin
        subst hin
        cases e with
        | showEv arg delay =>
            cases arg <;> simp [applyEv, ScopedProgressService.show']
        | totalEv n => simp [applyEv, ScopedProgressService.total]
        | workedEv n => simp [applyEv, ScopedProgressService.worked]
        | doneEv => simp [applyEv, ScopedProgressService.done]
        | showWhileEv p delay =>
            simp [applyEv, ScopedProgressService.showWhileState,
              ScopedProgressService.doShowWhile]
  · intro now s hact hidle
    cases s with
    | mk act sid st bar =>
        simp only at hact
        subst hact
        cases st with
        | none =>
            simp [ScopedProgressService.onScopeActivated,
              ScopedProgressService.onScopeDeactivated]
        | done =>
            simp [ScopedProgressService.onScopeActivated,
              ScopedProgressService.onScopeDeactivated]
        | infinite =>
            obtain ⟨r, im, tw, wv, vis, tr⟩ := bar
            simp only [replayIdle, Bar.display, infiniteShownDisplay,
              BarDisplay.mk.injEq] at hidle
            obtain ⟨hr, him, htw, hwv, hvis⟩ := hidle
            subst hr; subst him; subst htw; subst hwv; subst hvis
            simp [ScopedProgressService.onScopeActivated,
              ScopedProgressService.onScopeDeactivated, Bar.infinite, Bar.reveal, Bar.display]
        | whileState p a b =>
            obtain ⟨r, im, tw, wv, vis, tr⟩ := bar
            simp only [replayIdle, Bar.display, infiniteShownDisplay,
              BarDisplay.mk.injEq] at hidle
            obtain ⟨hr, him, htw, hwv, hvis⟩ := hidle
            subst hr; subst him; subst htw; subst hwv; subst hvis
            simp [ScopedProgressService.onScopeActivated,
              ScopedProgressService.onScopeDeactivated, ScopedProgressService.doShowWhile,
              Bar.infinite, Bar.reveal, Bar.display]
        | work t w =>
            rcases hidle with ⟨ht, hw⟩ | ⟨ht, hd⟩
            · simp [ScopedProgressService.onScopeActivated,
                ScopedProgressService.onScopeDeactivated, ht, hw]
            · obtain ⟨r, im, tw, wv, vis, tr⟩ := bar
              simp only [Bar.display, workShownDisplay, BarDisplay.mk.injEq] at hd
              obtain ⟨hr, him, htw, hwv, hvis⟩ := hd
              subst hr; subst him; subst htw; subst hwv; subst hvis
              cases hwt : truthy w with
              | false =>
                  simp [ScopedProgressService.onScopeActivated,
                    ScopedProgressService.onScopeDeactivated, ht, hwt,
                    Bar.total, Bar.reveal, Bar.display, truthy_false_getD hwt]
              | true =>
                  simp [ScopedProgressService.onScopeActivated,
                    ScopedProgressService.onScopeDeactivated, ht, hwt,
                    Bar.total, Bar.worked, Bar.reveal, Bar.display]

/-- C3 witness: the amended theorem at concrete inputs — a `done()` call on
a concrete inactive reporter leaves the widget untouched, and a
deactivate/reactivate cycle on a concrete active, freshly constructed
reporter (state `None`, display in agreement) preserves the display. -/
theorem c3_deactivate_reactivate_noop_witness :
    (applyEv 0 Ev.doneEv c3InactiveSvc).bar = c3InactiveSvc.bar ∧
    (ScopedProgressService.onScopeActivated 5 c3ActiveIdleSvc.onScopeDeactivated).bar.display
      = c3ActiveIdleSvc.bar.display :=
  ⟨c3_deactivate_reactivate_noop.1 0 Ev.doneEv c3InactiveSvc rfl,
   (c3_deactivate_reactivate_noop.2 5 c3ActiveIdleSvc rfl trivial).1⟩

/-- C4: for every sequence of handle `total(n)`/`worked(n)` calls on a
reporter in a `Work` state — under the guard `!isActive || hasTotal` that
keeps `worked` on its accumulating branch, i.e. the reporter stays in `Work`
— the stored `Work.worked` equals the running value plus the sum of all
`worked` deltas (each delta added, never replacing), carried across
interleaved `total` calls; a `total(n)` call from a `Work` state carries the
prior worked value into the new state while setting the total to `n`, and
from a non-`Work` state yields `Work{total = n, worked absent}`. -/
theorem c4_worked_accumulates :
    (∀ (s : ScopedProgressService) (t w : Option Nat) (evs : List HEv),
        (s.isActive = false ∨ s.bar.hasTotal = true) →
        s.progressState = PState.work t w →
        (applyHs evs s).progressState = PState.work (lastTotal t evs) (expWorked w evs)) ∧
    (∀ (s : ScopedProgressService) (t w : Option Nat) (n : Nat),
        s.progressState = PState.work t w →
        (s.total n).progressState = PState.work (some n) w) ∧
    (∀ (s : ScopedProgressService) (n : Nat),
        (∀ t w, s.progressState ≠ PState.work t w) →
        (s.total n).progressState = PState.work (some n) Option.none) := by
  refine ⟨fun s t w evs hg hst => applyHs_work evs s t w hg hst, ?_, ?_⟩
  · intro s t w n hst
    cases s with
    | mk act sid st bar =>
        simp only at hst
        subst hst
        cases act <;> simp [ScopedProgressService.total]
  · intro s n hne
    cases s with
    | mk act sid st bar =>
        cases st with
        | work t w => exact absurd rfl (hne t w)
        | none => cases act <;> simp [ScopedProgressService.total]
        | done => cases act <;> simp [ScopedProgressService.total]
        | infinite => cases act <;> simp [ScopedProgressService.total]
        | whileState p a b => cases act <;> simp [ScopedProgressService.total]

/-- C4 witness: on an inactive reporter in state `Work{5, absent}`, the
sequence `worked(2); total(7); worked(3)` ends in `Work{7, 5}`; a `total(4)`
on a non-`Work` reporter yields `Work{4, absent}`. -/
theorem c4_worked_accumulates_witness :
    (applyHs [HEv.hworked 2, HEv.htotal 7, HEv.hworked 3] c4InactiveWorkSvc).progressState
      = PState.work (some 7) (some 5) ∧
    (c4InactiveNoneSvc.total 4).progressState = PState.work (some 4) Option.none := by
  constructor
  · have h := c4_worked_accumulates.1 c4InactiveWorkSvc (some 5) Option.none
      [HEv.hworked 2, HEv.htotal 7, HEv.hworked 3] (Or.inl rfl) rfl
    simpa [lastTotal, expWorked, hasWorkedEv, sumDeltas] using h
  · exact c4_worked_accumulates.2.2 c4InactiveNoneSvc 4
      (by intro t w h; simp [c4InactiveNoneSvc] at h)

/-- C5 counterexample: on an inactive reporter whose state is `None` (not
`Work`), `worked(3)` does not transition to `Infinite`: the guard
`!isActive || hasTotal` passes, so the code records
`Work{total = undefined, worked = 3}`. -/
theorem c5_counterexample :
    c5InactiveSvc.progressState = PState.none ∧
    (c5InactiveSvc.worked 3).progressState = PState.work Option.none (some 3) ∧
    (c5InactiveSvc.worked 3).progressState ≠ PState.infinite := by
  decide

/-- C5 amended: on an *active* reporter whose widget reports no determinate
total, `worked(n)` transitions the state to `Infinite` (regardless of the
current state) and the widget is switched to indeterminate mode and revealed
— not a crash and not a silent drop. -/
theorem c5_amended (n : Nat) (s : ScopedProgressService)
    (hAct : s.isActive = true) (hTot : s.bar.hasTotal = false) :
    (s.worked n).progressState = PState.infinite ∧
    (s.worked n).bar.trace = s.bar.trace ++ [BarCall.infinite, BarCall.reveal Option.none] ∧
    (s.worked n).bar.infiniteMode = true ∧
    (s.worked n).bar.running = true ∧
    (s.worked n).bar.visible = true := by
  simp [ScopedProgressService.worked, hAct, hTot, Bar.infinite, Bar.reveal]

/-- C5 witness: the amended theorem at a concrete active reporter (state
`Done`, fresh widget without a total). -/
theorem c5_amended_witness :
    (c5ActiveNoTotalSvc.worked 4).progressState = PState.infinite ∧
    (c5ActiveNoTotalSvc.worked 4).bar.trace
      = c5ActiveNoTotalSvc.bar.trace ++ [BarCall.infinite, BarCall.reveal Option.none] ∧
    (c5ActiveNoTotalSvc.worked 4).bar.infiniteMode = true ∧
    (c5ActiveNoTotalSvc.worked 4).bar.running = true ∧
    (c5ActiveNoTotalSvc.worked 4).bar.visible = true :=
  c5_amended 4 c5ActiveNoTotalSvc rfl rfl

/-- C6: a stale `stop` — the current state is a `While` for a different
(joined, superseding) promise — is a no-op: the service, its state and its
widget are left untouched. -/
theorem c6_stale_stop_noop (s : ScopedProgressService) (p q : Prom) (a b : Nat)
    (hst : s.progressState = PState.whileState q a b) (hne : q ≠ p) :
    ScopedProgressService.stop p s = s := by
  cases s with
  | mk act sid st bar =>
      simp only at hst
      subst hst
      simp [ScopedProgressService.stop, hne]

/-- C6 witness: the stale-stop theorem at a concrete reporter whose `While`
tracks `base 1` while the settled promise is `base 0`. -/
theorem c6_witness : ScopedProgressService.stop (Prom.base 0) c6WhileSvc = c6WhileSvc :=
  c6_stale_stop_noop c6WhileSvc (Prom.base 0) (Prom.base 1) 0 0 rfl (by decide)

/-- C7: for both reporter variants and every input promise and settlement
environment, the future returned by `showWhile` fulfills — never rejects —
and it settles exactly when the tracked (possibly joined) operation settles,
whatever that operation's outcome: both settlement slots of
`promise.then(stop, stop)` hold the same total `stop` function. -/
theorem c7_returned_future_never_rejects (env : Nat → Settlement) (p : Prom)
    (s : ScopedProgressService) :
    (s.showWhileFuture env p).out = Outcome.fulfilled ∧
    (s.showWhileFuture env p).time = (settle env (s.showWhileJoin p)).time ∧
    (ProgressService.showWhileFuture env p).out = Outcome.fulfilled ∧
    (ProgressService.showWhileFuture env p).time = (settle env p).time := by
  simp [ScopedProgressService.showWhileFuture, ProgressService.showWhileFuture,
    thenSettle_returns]

/-- C8: on an active reporter, calling `done()` twice leaves the state at
`Done` after both calls; after the first call the widget is already stopped
and concealed, and the second call produces no observable display change
(the widget methods are invoked again, but stopping a stopped widget and
hiding a hidden one alter nothing visible). -/
theorem c8_done_idempotent (s : ScopedProgressService) (hAct : s.isActive = true) :
    (s.done).progressState = PState.done ∧
    ((s.done).done).progressState = PState.done ∧
    ((s.done).done).bar.display = (s.done).bar.display ∧
    (s.done).bar.running = false ∧
    (s.done).bar.visible = false := by
  cases s with
  | mk act sid st bar =>
      simp only at hAct
      subst hAct
      simp [ScopedProgressService.done, Bar.stop, Bar.hide, Bar.display]

/-- C8 witness: the idempotence theorem at a concrete active reporter. -/
theorem c8_done_idempotent_witness :
    (c8ActiveSvc.done).progressState = PState.done ∧
    ((c8ActiveSvc.done).done).progressState = PState.done ∧
    ((c8ActiveSvc.done).done).bar.display = (c8ActiveSvc.done).bar.display ∧
    (c8ActiveSvc.done).bar.running = false ∧
    (c8ActiveSvc.done).bar.visible = false :=
  c8_done_idempotent c8ActiveSvc rfl

/-- C9 counterexample: a scoped reporter constructed with `isActive = false`
and the *empty-string* scope identifier starts `Inactive` — the constructor
tests `types.isUndefinedOrNull(scopeId)`, not emptiness, so the claim's
"empty identifier forces Active" is false. -/
theorem c9_counterexample :
    (mkScoped bar0 (some "") false).scopeId = some "" ∧
    (mkScoped bar0 (some "") false).isActive = false := by
  decide

/-- C9 amended: a scoped reporter constructed with `isActive = false` starts
`Inactive` unless its scope identifier is *absent* (`undefined`/`null`),
which forces it to start `Active`; in either case the initial progress state
is `None`. -/
theorem c9_amended (b : Bar) (act : Bool) (id : String) :
    (mkScoped b Option.none act).isActive = true ∧
    (mkScoped b (some id) act).isActive = act ∧
    (mkScoped b (some id) act).progressState = PState.none ∧
    (mkScoped b Option.none act).progressState = PState.none := by
  simp [mkScoped]

/-- C10: `show(b, delay)` with a boolean argument selects the infinite branch
for either value of `b` — the value is ignored, only `typeof` dispatch
matters.  The scoped variant records `Infinite` and (exactly when active)
starts the widget indeterminate with the given reveal delay; the unscoped
variant always starts the widget indeterminate. -/
theorem c10_show_boolean_ignored (b : Bool) (delay : Option Nat)
    (s : ScopedProgressService) (ps : ProgressService) :
    (s.show' (InfiniteOrTotal.bool b) delay).progressState = PState.infinite ∧
    (s.show' (InfiniteOrTotal.bool b) delay).bar
      = (if s.isActive then (s.bar.infinite).reveal delay else s.bar) ∧
    (ProgressService.show' (InfiniteOrTotal.bool b) delay ps).bar
      = (ps.bar.infinite).reveal delay := by
  cases s with
  | mk act sid st bar =>
      cases act <;> simp [ScopedProgressService.show', ProgressService.show']

end VSProgress
